import Mathlib

/-!
Verification development for the weather dashboard repository
(`app.py`, `weather_app.py`, `weather_scraper.py`).

The file shallowly embeds the program's core data transformations:
the digital-forecast pair reassembly loop, the display-formatting loop,
the CSV row builder, the current-conditions HTML extractor, and the
geocoder, and proves or refutes the frozen claims about them.
-/

/- ## Python primitives
All string primitives are implemented over `List Char` (`String.data`) so
that every definition evaluates by kernel reduction. -/

/-- Whitespace characters stripped by Python's `str.strip()`. -/
def pyWhitespace (c : Char) : Bool :=
  c = ' ' || c = '\t' || c = '\n' || c = '\r' || c = '\x0b' || c = '\x0c'

/-- Character-level embedding of Python's `str.strip()`. -/
def trimChars (cs : List Char) : List Char :=
  ((cs.dropWhile pyWhitespace).reverse.dropWhile pyWhitespace).reverse

/-- String-level `strip()`, as applied by the extractor to node texts. -/
def pyStrip (s : String) : String :=
  String.mk (trimChars s.data)

/-- Decimal digit test on a character. -/
def isDigitChar (c : Char) : Bool :=
  48 ≤ c.toNat && c.toNat ≤ 57

/-- Numeric value of a list of decimal digit characters, as in Python's
`int()` applied to a digit string (most significant digit first). -/
def pyDigitsVal (cs : List Char) : Nat :=
  cs.foldl (fun a c => 10 * a + (c.toNat - 48)) 0

/-- Shallow embedding of Python's builtin `int(s)` on strings: surrounding
whitespace is stripped, an optional single leading sign is accepted, and the
remainder must be a non-empty run of decimal digits; otherwise `int` raises
`ValueError`, modelled as `none`. -/
def pyInt (s : String) : Option Int :=
  let t := trimChars s.data
  let core := match t with
    | c :: rest => if c = '-' || c = '+' then rest else t
    | [] => t
  if core.length > 0 && core.all isDigitChar then
    some (if t.head? = some '-' then -(pyDigitsVal core : Int) else (pyDigitsVal core : Int))
  else none

/-- Decimal digit characters of a natural number. -/
def natChars (n : Nat) : List Char :=
  Nat.toDigits 10 n

/-- Shallow embedding of the format spec `f"{n:02d}"`: decimal rendering of
`n` (with sign for negatives) left-padded with a zero to a minimum width
of two characters. -/
def py02d (n : Int) : String :=
  let s := if n < 0 then '-' :: natChars n.natAbs else natChars n.natAbs
  String.mk (if s.length < 2 then '0' :: s else s)

/-- Does `hay` start with `needle`, character by character. -/
def charsStart : List Char → List Char → Bool
  | _, [] => true
  | [], _ :: _ => false
  | a :: as, b :: bs => a = b && charsStart as bs

/-- Does some suffix of `hay` start with `needle`. -/
def charsContains (needle : List Char) : List Char → Bool
  | [] => needle.isEmpty
  | hay@(_ :: t) => charsStart hay needle || charsContains needle t

/-- Shallow embedding of Python's substring test `needle in hay`. -/
def strContains (hay needle : String) : Bool :=
  charsContains needle.data hay.data

/- ## Digital-forecast pair reassembly
(`app.py` lines 263-275 and `weather_app.py` lines 596-608; the two loops
are textually identical).

```python
combined = []
if len(all_dates) > 0 and len(all_hours) > 0:
    hours_per_block = len(all_hours) // len(all_dates)
    idx = 0
    for date in all_dates:
        if date == all_dates[-1]:
            hours = all_hours[idx:]
        else:
            hours = all_hours[idx:idx+hours_per_block]
        for hour in hours:
            combined.append([date, hour])
        idx += len(hours)
```
-/

/-- One iteration's hour slice: `all_hours[idx:]` when the current date
equals `all_dates[-1]` (by value), else `all_hours[idx:idx+block]`. -/
def hourSlice (lastd : String) (block : Nat) (allHours : List String)
    (d : String) (idx : Nat) : List String :=
  if d = lastd then allHours.drop idx else (allHours.drop idx).take block

/-- The reassembly loop body, threading the cursor `idx` exactly as the
source does (`idx += len(hours)`), emitting one pair per hour token. -/
def combineLoop (lastd : String) (block : Nat) (allHours : List String) :
    List String → Nat → List (String × String)
  | [], _ => []
  | d :: ds, idx =>
    (hourSlice lastd block allHours d idx).map (fun h => (d, h)) ++
      combineLoop lastd block allHours ds (idx + (hourSlice lastd block allHours d idx).length)

/-- The same loop viewed as the per-date hour blocks it consumes, one block
per date in order. -/
def hourBlocksLoop (lastd : String) (block : Nat) (allHours : List String) :
    List String → Nat → List (List String)
  | [], _ => []
  | d :: ds, idx =>
    hourSlice lastd block allHours d idx ::
      hourBlocksLoop lastd block allHours ds (idx + (hourSlice lastd block allHours d idx).length)

/-- Embedding of the full reassembly step: guarded by
`len(all_dates) > 0 and len(all_hours) > 0`, with
`hours_per_block = len(all_hours) // len(all_dates)` and the comparison date
`all_dates[-1]` (for a non-empty list, its last element). -/
def combine (allDates allHours : List String) : List (String × String) :=
  if 0 < allDates.length ∧ 0 < allHours.length then
    combineLoop (allDates.getLastD "") (allHours.length / allDates.length) allHours allDates 0
  else []

/-- Per-date hour blocks of the reassembly step, same guard and parameters. -/
def hourBlocks (allDates allHours : List String) : List (List String) :=
  if 0 < allDates.length ∧ 0 < allHours.length then
    hourBlocksLoop (allDates.getLastD "") (allHours.length / allDates.length) allHours allDates 0
  else []

/-- Blocks as claim C1's words describe them (spec-side definition, for
comparison with the source-derived `hourBlocks`): with `D` dates, the date at
position `i` for `i` up to `D - 2` gets exactly `block` consecutive
hour-tokens starting at the cursor `i * block`, and the date at the last
position gets all remaining hour-tokens. -/
def specBlocks (D block : Nat) (hours : List String) : List (List String) :=
  (List.range D).map (fun i =>
    if i = D - 1 then hours.drop (i * block) else (hours.drop (i * block)).take block)

/- ## Display formatting
(`app.py` lines 277-286 and `weather_app.py` lines 610-619).

```python
formatted = []
for date, hour in combined:
    try:
        dt = datetime.strptime(date, "%m/%d")
        date_str = dt.strftime("%B %-d") if hasattr(dt, 'strftime') else ...
    except Exception:
        date_str = date
    hour_str = f"{int(hour):02d}:00"
    formatted.append(f"{date_str}, {hour_str}")
```

Both files bind `datetime` with `import datetime` (module), not
`from datetime import datetime` (class).  The module object has no
`strptime` attribute, so `datetime.strptime(date, "%m/%d")` raises
`AttributeError` on every iteration, the `except Exception` handler fires,
and `date_str = date` is taken for every date-token, well-formed or not.
`int(hour)` is evaluated outside the handler, so a non-integer hour-token
raises an uncaught `ValueError` that aborts the whole cycle (`none`). -/

/-- Display string of one `(date, hour)` pair as the source computes it:
the date falls back to its raw text (the `try` body always raises, see
above), and `f"{int(hour):02d}:00"` is appended; `none` models the uncaught
`ValueError` when the hour-token does not parse as an integer. -/
def formatPair (date hour : String) : Option String :=
  let dateStr := date
  (pyInt hour).map (fun h => dateStr ++ ", " ++ py02d h ++ ":00")

/-- The formatting loop over all pairs: the first pair whose hour-token
fails `int()` aborts the loop (and the fetch cycle) with an uncaught
exception, modelled as `none`. -/
def formatPairs : List (String × String) → Option (List String)
  | [] => some []
  | p :: ps =>
    match formatPair p.1 p.2 with
    | none => none
    | some s => (formatPairs ps).map (fun rest => s :: rest)

/- ## CSV row construction
(`weather_scraper.py` lines 321-333, `save_forecast_to_csv`).

```python
data = []
for i in range(len(all_dates)):
    data.append({
        'Date': all_dates[i] if i < len(all_dates) else '',
        'Hour': all_hours[i] if i < len(all_hours) else '',
        'Temperature (F)': temp_values[i] if i < len(temp_values) else '',
        'Surface Wind Speed (mph)': wind_values[i] if i < len(wind_values) else '',
        'Relative Humidity (%)': humidity_values[i] if i < len(humidity_values) else ''
    })
```
-/

/-- One exported row: Date, Hour, Temperature (F), Surface Wind Speed (mph),
Relative Humidity (%). -/
structure CsvRow where
  date : String
  hour : String
  temperature : String
  wind : String
  humidity : String
deriving DecidableEq

/-- The rows `save_forecast_to_csv` builds before writing them out: one row
per index in `range(len(all_dates))`, each field guarded by
`xs[i] if i < len(xs) else ''` (modelled by `List.getD`). -/
def save_forecast_rows (allDates allHours tempValues windValues humidityValues :
    List String) : List CsvRow :=
  (List.range allDates.length).map (fun i =>
    { date := allDates.getD i ""
      hour := allHours.getD i ""
      temperature := tempValues.getD i ""
      wind := windValues.getD i ""
      humidity := humidityValues.getD i "" })

/- ## Forecast table selection
(`app.py` lines 236-241 and `weather_app.py` lines 569-574).

```python
soup = BeautifulSoup(resp.content, "html.parser")
table = soup.find_all("table")[4]
```
-/

/-- A document node, identified by its tag name and a key distinguishing it
from other nodes of the same tag. -/
structure HtmlNode where
  tag : String
  key : Nat
deriving DecidableEq

/-- Embedding of `soup.find_all("table")`: all table nodes of the document
in document order. -/
def findAllTables (doc : List HtmlNode) : List HtmlNode :=
  doc.filter (fun n => n.tag = "table")

/-- Embedding of `soup.find_all("table")[4]`: Python indexing raises
`IndexError` when the list is too short, modelled as `none`. -/
def forecastTable (doc : List HtmlNode) : Option HtmlNode :=
  (findAllTables doc).get? 4

/- ## Current-conditions extraction
(`weather_scraper.py` lines 167-202, `get_weather_data_html_weather_gov`).

```python
resp = requests.get(url, headers=headers, timeout=10)
soup = BeautifulSoup(resp.content, "html.parser")
temp = soup.find(class_="myforecast-current-lrg")
temperature = temp.text.strip() if temp else "N/A"
cond = soup.find(class_="myforecast-current")
conditions = cond.text.strip() if cond else "N/A"
humidity = wind = "N/A"
for row in soup.select("#current_conditions_detail tr"):
    cells = row.find_all("td")
    if len(cells) == 2:
        label = cells[0].get_text(strip=True)
        value = cells[1].get_text(strip=True)
        if "Humidity" in label:
            humidity = value
        if "Wind" in label:
            wind = value
```
-/

/-- The parts of a fetched current-conditions page the extractor reads:
the raw text of the first node of each of the two class markers (when
present), and, for each `tr` under `#current_conditions_detail`, the list
of its `td` cell texts (already whitespace-stripped, as `get_text(strip=True)`
returns them). -/
structure CurrentPage where
  tempNode : Option String
  condNode : Option String
  detailRows : List (List String)
deriving DecidableEq

/-- The extractor's result dict. -/
structure CurrentConditions where
  temperature : String
  humidity : String
  wind_speed : String
  conditions : String
deriving DecidableEq

/-- One iteration of the detail-row loop, updating the running
(humidity, wind) pair: only rows with exactly two `td` cells are read, and a
matching label overwrites the current value. -/
def detailStep (hw : String × String) (cells : List String) : String × String :=
  if cells.length = 2 then
    let label := cells.getD 0 ""
    let value := cells.getD 1 ""
    let h := if strContains label "Humidity" then value else hw.1
    let w := if strContains label "Wind" then value else hw.2
    (h, w)
  else hw

/-- Embedding of the extraction body of `get_weather_data_html_weather_gov`:
missing markers yield "N/A"; present markers yield their stripped text; the
detail rows are scanned in order with later matches overwriting earlier
ones. -/
def get_weather_data_html_weather_gov (page : CurrentPage) : CurrentConditions :=
  let temperature := match page.tempNode with
    | some t => pyStrip t
    | none => "N/A"
  let conditions := match page.condNode with
    | some c => pyStrip c
    | none => "N/A"
  let hw := page.detailRows.foldl detailStep ("N/A", "N/A")
  { temperature := temperature
    humidity := hw.1
    wind_speed := hw.2
    conditions := conditions }

/-- A transport-level failure of `requests.get` (timeout, connection error);
nothing in `get_weather_data_html_weather_gov` catches it. -/
inductive TransportError
  | timeout
  | connectionFailure
deriving DecidableEq

/-- A delivered HTTP response: its status code and the page content.  The
function body never reads `resp.status_code`. -/
structure HttpResponse where
  status : Nat
  page : CurrentPage
deriving DecidableEq

/-- The whole call `get_weather_data_html_weather_gov(url)`: the transport
either raises (error propagates uncaught) or delivers a response, whose body
is parsed best-effort with no status check anywhere in the function. -/
def fetch_current (r : Except TransportError HttpResponse) :
    Except TransportError CurrentConditions :=
  match r with
  | .error e => .error e
  | .ok resp => .ok (get_weather_data_html_weather_gov resp.page)

/- ## Geocoding
(`weather_scraper.py` lines 10-48, `get_coordinates`).

```python
response = requests.get(url, headers=headers)
if response.status_code != 200:
    raise Exception(f"Geocoding API request failed with status code: ...")
data = response.json()
if not data:
    raise Exception(f"No coordinates found for location: {location}")
first_result = data[0]
lat = first_result['lat']
lon = first_result['lon']
time.sleep(1)
return lat, lon
```

The surrounding `except Exception as e: raise Exception(f"Error getting
coordinates: {str(e)}")` re-wraps each failure but preserves which of the
two raise sites fired (the message embeds it); the error kind below models
that distinction. -/

/-- One candidate of the Nominatim JSON response. -/
structure GeoCandidate where
  lat : String
  lon : String
deriving DecidableEq

/-- The geocoding lookup's response: HTTP status and decoded JSON list. -/
structure GeoResponse where
  status : Nat
  data : List GeoCandidate
deriving DecidableEq

/-- The two raise sites of `get_coordinates`: non-success status, and the
empty candidate list. -/
inductive GeoError
  | serviceError (status : Nat)
  | notFound (location : String)
deriving DecidableEq

/-- Embedding of `get_coordinates`: status check first, then the emptiness
check (`if not data`), then the first candidate's `lat`/`lon`. -/
def get_coordinates (location : String) (response : GeoResponse) :
    Except GeoError (String × String) :=
  if response.status ≠ 200 then .error (.serviceError response.status)
  else
    match response.data with
    | [] => .error (.notFound location)
    | first :: _ => .ok (first.lat, first.lon)

/- ## Helper lemmas -/

/-- For a non-empty list, `getLast?` returns the `getLastD` value. -/
theorem getLast?_eq_some_getLastD (l : List String) (d : String) (h : l ≠ []) :
    l.getLast? = some (l.getLastD d) := by
  rw [List.getLastD_eq_getLast?, List.getLast?_eq_getLast l h]
  rfl

/-- Indexing a `map` over `range` below the bound evaluates the function. -/
theorem getD_map_range {α : Type} (f : Nat → α) (n i : Nat) (d : α) (h : i < n) :
    ((List.range n).map f).getD i d = f i := by
  rw [List.getD_eq_getD_get?, List.get?_map, List.get?_range h]
  rfl

/-- Indexing below the truncation point ignores a `take`. -/
theorem getD_take_of_lt {α : Type} (l : List α) (n i : Nat) (d : α) (h : i < n) :
    (l.take n).getD i d = l.getD i d := by
  rw [List.getD_eq_getD_get?, List.getD_eq_getD_get?, List.get?_take h]

/- ## Claim C5 -/

/-- C5: when the dates accumulator or the hours accumulator is empty, the
reassembly produces an empty pair sequence (and, being a total function,
raises no error): the guard `len(all_dates) > 0 and len(all_hours) > 0`
short-circuits the loop and `combined` stays `[]`. -/
theorem combine_empty_inputs (allDates allHours : List String)
    (h : allDates = [] ∨ allHours = []) : combine allDates allHours = [] := by
  unfold combine
  rcases h with h | h <;> subst h <;> simp

/-- Witness for C5 at a concrete input: empty dates, one hour token. -/
theorem combine_empty_inputs_witness :
    (([] : List String) = [] ∨ (["1"] : List String) = []) ∧ combine [] ["1"] = [] :=
  ⟨Or.inl rfl, combine_empty_inputs [] ["1"] (Or.inl rfl)⟩

/- ## Claim C2 -/

/-- C2 counterexample: the claim says the parser selects the table at
0-based index 5 (the sixth table); on a document with six tables the source
expression `soup.find_all("table")[4]` selects the table at index 4 (the
fifth), not the one at index 5. -/
theorem forecastTable_not_sixth :
    forecastTable [⟨"table", 0⟩, ⟨"table", 1⟩, ⟨"table", 2⟩, ⟨"table", 3⟩,
        ⟨"table", 4⟩, ⟨"table", 5⟩] ≠
      (findAllTables [⟨"table", 0⟩, ⟨"table", 1⟩, ⟨"table", 2⟩, ⟨"table", 3⟩,
        ⟨"table", 4⟩, ⟨"table", 5⟩]).get? 5 := by decide

/-- C2 amended: the parser enumerates all tables in document order and
selects the table at 0-based positional index 4 (the fifth table): whenever
exactly four tables precede `t` in the enumeration, `t` is selected, and
with at most four tables on the page the indexing fails (IndexError). -/
theorem forecastTable_is_fifth (doc : List HtmlNode) :
    (∀ pre t post, findAllTables doc = pre ++ t :: post → pre.length = 4 →
      forecastTable doc = some t) ∧
    ((findAllTables doc).length ≤ 4 → forecastTable doc = none) := by
  constructor
  · intro pre t post hsplit hlen
    unfold forecastTable
    rw [hsplit, ← hlen, List.get?_append_right (Nat.le_refl _)]
    simp
  · intro hle
    unfold forecastTable
    exact List.get?_eq_none.mpr hle

/-- Witness for C2's amended theorem on a six-table document. -/
theorem forecastTable_is_fifth_witness :
    findAllTables [⟨"table", 0⟩, ⟨"table", 1⟩, ⟨"table", 2⟩, ⟨"table", 3⟩,
        ⟨"table", 4⟩, ⟨"table", 5⟩] =
      [⟨"table", 0⟩, ⟨"table", 1⟩, ⟨"table", 2⟩, ⟨"table", 3⟩] ++
        (⟨"table", 4⟩ : HtmlNode) :: [⟨"table", 5⟩] ∧
    forecastTable [⟨"table", 0⟩, ⟨"table", 1⟩, ⟨"table", 2⟩, ⟨"table", 3⟩,
        ⟨"table", 4⟩, ⟨"table", 5⟩] = some ⟨"table", 4⟩ :=
  ⟨by decide,
    (forecastTable_is_fifth _).1 [⟨"table", 0⟩, ⟨"table", 1⟩, ⟨"table", 2⟩, ⟨"table", 3⟩]
      ⟨"table", 4⟩ [⟨"table", 5⟩] (by decide) rfl⟩

/- ## Claim C3 -/

/-- C3: on the scenario pairs the formatting loop emits the raw date-tokens,
not the month-name display strings the claim requires.  `import datetime`
binds the module, whose `strptime` attribute does not exist, so the `try`
body raises `AttributeError` on every pair and the fallback `date_str = date`
always fires; the code's own comment ("Format as 'Month Day, HH:00'"), its
correct uses of `datetime.datetime.strptime` elsewhere, and the downstream
re-parsing with format `"%B %d, %H:%M"` show the month-name output was the
intent, so this is a bug in the code. -/
theorem format_scenario_raw_date :
    formatPairs [("5/10", "22"), ("5/10", "23"), ("5/11", "0"), ("5/11", "1"), ("5/11", "2")] =
      some ["5/10, 22:00", "5/10, 23:00", "5/11, 00:00", "5/11, 01:00", "5/11, 02:00"] ∧
    formatPairs [("5/10", "22"), ("5/10", "23"), ("5/11", "0"), ("5/11", "1"), ("5/11", "2")] ≠
      some ["May 10, 22:00", "May 10, 23:00", "May 11, 00:00", "May 11, 01:00", "May 11, 02:00"] := by
  exact ⟨by decide, by decide⟩

/- ## Claim C4 -/

/-- C4 counterexample: with one (date, hour) pair but an empty temperature
array (a length mismatch), `save_forecast_to_csv` raises nothing: it
silently emits a row whose temperature field is padded to the empty
string. -/
theorem save_rows_mismatch_no_error :
    save_forecast_rows ["5/10"] ["22"] [] [] [] =
      [{ date := "5/10", hour := "22", temperature := "", wind := "", humidity := "" }] := by
  decide

/-- C4 amended: on misaligned value arrays the record-building step of
`save_forecast_to_csv` does not raise a `LayoutError`; it always emits
exactly one row per date token, silently padding any missing value with the
empty string and silently dropping value entries beyond the number of date
tokens. -/
theorem save_rows_pad_truncate (allDates allHours temps winds hums : List String) :
    (save_forecast_rows allDates allHours temps winds hums).length = allDates.length ∧
    (∀ i, i < allDates.length → temps.length ≤ i →
      ((save_forecast_rows allDates allHours temps winds hums).getD i
        ⟨"", "", "", "", ""⟩).temperature = "") ∧
    save_forecast_rows allDates allHours temps winds hums =
      save_forecast_rows allDates (allHours.take allDates.length)
        (temps.take allDates.length) (winds.take allDates.length)
        (hums.take allDates.length) := by
  refine ⟨by simp [save_forecast_rows], ?_, ?_⟩
  · intro i hi hlen
    unfold save_forecast_rows
    rw [getD_map_range _ _ _ _ hi]
    exact List.getD_eq_default _ _ hlen
  · unfold save_forecast_rows
    apply List.map_congr_left
    intro i hi
    rw [List.mem_range] at hi
    simp only [getD_take_of_lt _ _ _ _ hi]

/-- Witness for C4's amended theorem: two dates, a single temperature value;
row index 1 is padded with the empty string. -/
theorem save_rows_pad_truncate_witness :
    1 < 2 ∧ (1 : Nat) ≤ 1 ∧
    ((save_forecast_rows ["a", "b"] [] ["7"] [] []).getD 1
      ⟨"", "", "", "", ""⟩).temperature = "" :=
  ⟨by decide, by decide,
    (save_rows_pad_truncate ["a", "b"] [] ["7"] [] []).2.1 1 (by decide) (by decide)⟩

/- ## Claim C7 -/

/-- C7 counterexample: the claim says every non-success status fails with
`FetchError`; but `get_weather_data_html_weather_gov` never reads
`resp.status_code`, so a delivered 404 response is parsed best-effort and
the call returns normally. -/
theorem fetch_current_nonsuccess_ok :
    fetch_current (.ok ⟨404, ⟨none, none, []⟩⟩) =
      .ok { temperature := "N/A", humidity := "N/A", wind_speed := "N/A",
            conditions := "N/A" } := rfl

/-- C7 amended: `fetch_current` fails exactly when the transport fails (the
`requests` exception propagates uncaught); the response status is never
inspected, so every delivered response — success or not — is parsed
best-effort and returns normally, and missing fields never raise. -/
theorem fetch_current_status_ignored (r : Except TransportError HttpResponse)
    (e : TransportError) (resp : HttpResponse) :
    (fetch_current r = .error e ↔ r = .error e) ∧
    fetch_current (.ok resp) = .ok (get_weather_data_html_weather_gov resp.page) := by
  constructor
  · cases r with
    | error a => simp [fetch_current]
    | ok a => simp [fetch_current]
  · rfl

/- ## Claim C8 -/

/-- C8: for every location, when the (successfully delivered) geocoding
lookup returns an empty candidate list, `get_coordinates` raises the
not-found error, and when it returns at least one candidate it returns the
first candidate's lat and lon without raising. -/
theorem get_coordinates_first_candidate (location : String) (response : GeoResponse)
    (hstatus : response.status = 200) :
    (response.data = [] → get_coordinates location response = .error (.notFound location)) ∧
    (∀ c rest, response.data = c :: rest →
      get_coordinates location response = .ok (c.lat, c.lon)) := by
  constructor
  · intro hdata
    unfold get_coordinates
    rw [hstatus, hdata]
    simp
  · intro c rest hdata
    unfold get_coordinates
    rw [hstatus, hdata]
    simp

/-- Witness for C8 at concrete lookup responses: an empty candidate list and
a one-candidate list. -/
theorem get_coordinates_first_candidate_witness :
    (GeoResponse.mk 200 []).status = 200 ∧
    get_coordinates "Nowhere" ⟨200, []⟩ = .error (.notFound "Nowhere") ∧
    get_coordinates "X" ⟨200, [⟨"40.7", "-74.0"⟩]⟩ = .ok ("40.7", "-74.0") :=
  ⟨rfl, (get_coordinates_first_candidate "Nowhere" ⟨200, []⟩ rfl).1 rfl,
    (get_coordinates_first_candidate "X" ⟨200, [⟨"40.7", "-74.0"⟩]⟩ rfl).2
      ⟨"40.7", "-74.0"⟩ [] rfl⟩

/- ## Claim C10 -/

/-- Helper: one pair whose hour-token fails `int()` makes the whole
formatting loop abort. -/
theorem formatPairs_none_of_mem (d h : String) (hnone : pyInt h = none) :
    ∀ pairs : List (String × String), (d, h) ∈ pairs → formatPairs pairs = none := by
  intro pairs
  induction pairs with
  | nil => intro hmem; cases hmem
  | cons p ps ih =>
    intro hmem
    rcases List.mem_cons.mp hmem with heq | hmem2
    · rw [← heq]
      simp [formatPairs, formatPair, hnone]
    · cases hfp : formatPair p.1 p.2 with
      | none => simp [formatPairs, hfp]
      | some s => simp [formatPairs, hfp, ih hmem2]

/-- C10: the integer conversion `int(hour)` sits outside the date fallback
handler, so a pair list containing any hour-token that `int()` rejects
aborts the whole formatting loop (uncaught `ValueError`, modelled `none`),
while any date-token — malformed included — is tolerated: with a parseable
hour the pair formats to the raw date plus the zero-padded hour. -/
theorem formatPairs_hour_abort (pairs : List (String × String)) (d h : String) :
    ((d, h) ∈ pairs → pyInt h = none → formatPairs pairs = none) ∧
    (∀ n, pyInt h = some n →
      formatPair d h = some (d ++ ", " ++ py02d n ++ ":00")) := by
  constructor
  · intro hmem hnone
    exact formatPairs_none_of_mem d h hnone pairs hmem
  · intro n hn
    simp [formatPair, hn]

/-- Witness for C10: the malformed hour "xx" aborts the loop, and the
malformed date "garbage" with a parseable hour formats fine. -/
theorem formatPairs_hour_abort_witness :
    (("5/11", "xx") ∈ [("5/10", "22"), ("5/11", "xx")]) ∧
    pyInt "xx" = none ∧
    formatPairs [("5/10", "22"), ("5/11", "xx")] = none ∧
    pyInt "5" = some 5 ∧
    formatPair "garbage" "5" = some "garbage, 05:00" :=
  ⟨by decide, by decide,
    (formatPairs_hour_abort [("5/10", "22"), ("5/11", "xx")] "5/11" "xx").1
      (by decide) (by decide),
    by decide,
    by rw [(formatPairs_hour_abort [] "garbage" "5").2 5 (by decide)]; decide⟩

/- ## Claims C1 and C9: reassembly lemmas -/

/-- Unfolding equation for the pair loop on a cons cell. -/
theorem combineLoop_cons (lastd : String) (block : Nat) (H : List String)
    (d : String) (ds : List String) (idx : Nat) :
    combineLoop lastd block H (d :: ds) idx =
      (hourSlice lastd block H d idx).map (fun h => (d, h)) ++
        combineLoop lastd block H ds (idx + (hourSlice lastd block H d idx).length) := rfl

/-- Unfolding equation for the block loop on a cons cell. -/
theorem hourBlocksLoop_cons (lastd : String) (block : Nat) (H : List String)
    (d : String) (ds : List String) (idx : Nat) :
    hourBlocksLoop lastd block H (d :: ds) idx =
      hourSlice lastd block H d idx ::
        hourBlocksLoop lastd block H ds (idx + (hourSlice lastd block H d idx).length) := rfl

/-- Unfolding equation for the block loop on the empty list. -/
theorem hourBlocksLoop_nil (lastd : String) (block : Nat) (H : List String) (idx : Nat) :
    hourBlocksLoop lastd block H [] idx = [] := rfl

/-- Gluing step: one iteration's slice plus the hours remaining after the
advanced cursor reassemble the hours remaining before the iteration. -/
theorem hourSlice_append_drop (lastd : String) (block : Nat) (H : List String)
    (d : String) (idx : Nat) :
    hourSlice lastd block H d idx ++
      H.drop (idx + (hourSlice lastd block H d idx).length) = H.drop idx := by
  have hdd : ∀ k, H.drop (idx + k) = (H.drop idx).drop k := by
    intro k
    rw [List.drop_drop]
  unfold hourSlice
  by_cases hd : d = lastd
  · rw [if_pos hd, hdd, List.drop_length]
    exact List.append_nil _
  · rw [if_neg hd, hdd, List.length_take]
    by_cases hbl : block ≤ (H.drop idx).length
    · rw [Nat.min_eq_left hbl]
      exact List.take_append_drop block (H.drop idx)
    · push_neg at hbl
      rw [Nat.min_eq_right (Nat.le_of_lt hbl), List.drop_length, List.append_nil]
      exact List.take_of_length_le (Nat.le_of_lt hbl)

/-- An exhausted cursor yields empty slices for every remaining date. -/
theorem hourBlocksLoop_exhausted (lastd : String) (block : Nat) (H : List String) :
    ∀ ds idx, H.length ≤ idx →
      hourBlocksLoop lastd block H ds idx = ds.map (fun _ => ([] : List String)) := by
  intro ds
  induction ds with
  | nil => intro idx _; rfl
  | cons d ds ih =>
    intro idx hle
    have hs : hourSlice lastd block H d idx = [] := by
      unfold hourSlice
      rw [List.drop_eq_nil_of_le hle]
      by_cases hd : d = lastd
      · rw [if_pos hd]
      · rw [if_neg hd, List.take_nil]
    rw [hourBlocksLoop_cons, hs]
    simp only [List.length_nil, Nat.add_zero, List.map_cons]
    rw [ih idx hle]

/-- With the comparison date equal to the list's last element, the emitted
blocks concatenate to exactly the hours remaining at the cursor. -/
theorem hourBlocksLoop_join (lastd : String) (block : Nat) (H : List String) :
    ∀ ds idx, ds.getLast? = some lastd →
      (hourBlocksLoop lastd block H ds idx).flatten = H.drop idx := by
  intro ds
  induction ds with
  | nil => intro idx h; cases h
  | cons d ds ih =>
    intro idx hlast
    cases ds with
    | nil =>
      have hd : d = lastd := by simpa using hlast
      rw [hourBlocksLoop_cons, hourBlocksLoop_nil, List.flatten_cons, List.flatten_nil,
        List.append_nil]
      unfold hourSlice
      rw [if_pos hd]
    | cons d2 ds2 =>
      have hlast2 : (d2 :: ds2).getLast? = some lastd := by
        rw [← List.getLast?_cons_cons]
        exact hlast
      rw [hourBlocksLoop_cons, List.flatten_cons, ih _ hlast2]
      exact hourSlice_append_drop lastd block H d idx

/-- The pair loop is the flattening of the block loop with each block's
hours tagged by its date. -/
theorem combineLoop_eq_blocks (lastd : String) (block : Nat) (H : List String) :
    ∀ ds idx, combineLoop lastd block H ds idx =
      (ds.zip (hourBlocksLoop lastd block H ds idx)).flatMap
        (fun p => p.2.map (fun h => (p.1, h))) := by
  intro ds
  induction ds with
  | nil => intro idx; rfl
  | cons d ds ih =>
    intro idx
    rw [combineLoop_cons, hourBlocksLoop_cons, List.zip_cons_cons, List.flatMap_cons, ih]

/-- Mapping the emitted pairs to their hour components flattens the blocks. -/
theorem combineLoop_map_snd (lastd : String) (block : Nat) (H : List String) :
    ∀ ds idx, (combineLoop lastd block H ds idx).map Prod.snd =
      (hourBlocksLoop lastd block H ds idx).flatten := by
  intro ds
  induction ds with
  | nil => intro idx; rfl
  | cons d ds ih =>
    intro idx
    rw [combineLoop_cons, hourBlocksLoop_cons, List.map_append, List.flatten_cons, ih,
      List.map_map]
    congr 1
    simp

/-- Every continuation of the block loop after a date equal to the
comparison date consists of empty blocks, with the preceding blocks and that
date's block splitting the remaining hours between them. -/
theorem hourBlocksLoop_absorb (lastd : String) (block : Nat) (H : List String) :
    ∀ pre ds idx d post, ds = pre ++ d :: post → d = lastd →
      ds.getLast? = some lastd →
      ∃ front rest, hourBlocksLoop lastd block H ds idx =
          front ++ rest :: post.map (fun _ => ([] : List String)) ∧
        front.length = pre.length ∧ front.flatten ++ rest = H.drop idx := by
  intro pre
  induction pre with
  | nil =>
    intro ds idx d post hds hd _
    subst hds
    simp only [List.nil_append]
    refine ⟨[], H.drop idx, ?_, rfl, by rw [List.flatten_nil, List.nil_append]⟩
    have hs : hourSlice lastd block H d idx = H.drop idx := by
      unfold hourSlice
      rw [if_pos hd]
    rw [hourBlocksLoop_cons, hs, List.nil_append]
    congr 1
    apply hourBlocksLoop_exhausted
    rw [List.length_drop]
    omega
  | cons p pre ih =>
    intro ds idx d post hds hd hlast
    subst hds
    have hlast2 : (pre ++ d :: post).getLast? = some lastd := by
      obtain ⟨r, rs, hr⟩ : ∃ r rs, pre ++ d :: post = r :: rs := by
        cases pre with
        | nil => exact ⟨d, post, rfl⟩
        | cons q t => exact ⟨q, t ++ d :: post, rfl⟩
      rw [List.cons_append, hr] at hlast
      rw [hr, ← List.getLast?_cons_cons]
      exact hlast
    obtain ⟨front, rest, heq, hlen, hjoin⟩ :=
      ih (pre ++ d :: post) (idx + (hourSlice lastd block H p idx).length) d post rfl hd hlast2
    refine ⟨hourSlice lastd block H p idx :: front, rest, ?_, ?_, ?_⟩
    · rw [List.cons_append, hourBlocksLoop_cons, heq, List.cons_append]
    · simp [hlen]
    · rw [List.flatten_cons, List.append_assoc, hjoin]
      exact hourSlice_append_drop lastd block H p idx

/-- When no date before the last equals the comparison date and the hours
suffice, every non-final date consumes exactly `block` tokens and the block
loop produces the positional split described by the specification. -/
theorem hourBlocksLoop_no_early (lastd : String) (block : Nat) (H : List String) :
    ∀ ds idx, ds.getLast? = some lastd → lastd ∉ ds.dropLast →
      idx + (ds.length - 1) * block ≤ H.length →
      hourBlocksLoop lastd block H ds idx =
        (List.range ds.length).map (fun i =>
          if i = ds.length - 1 then H.drop (idx + i * block)
          else (H.drop (idx + i * block)).take block) := by
  intro ds
  induction ds with
  | nil => intro idx h; cases h
  | cons d ds ih =>
    intro idx hlast hnomem hbound
    cases ds with
    | nil =>
      have hd : d = lastd := by simpa using hlast
      have hs : hourSlice lastd block H d idx = H.drop idx := by
        unfold hourSlice
        rw [if_pos hd]
      rw [hourBlocksLoop_cons, hourBlocksLoop_nil, hs]
      rw [show ([d] : List String).length = 1 from rfl,
        show List.range 1 = [0] from by decide, List.map_cons, List.map_nil]
      rw [if_pos rfl, Nat.zero_mul, Nat.add_zero]
    | cons d2 ds2 =>
      have hd : d ≠ lastd := by
        intro h
        apply hnomem
        rw [List.dropLast_cons₂, ← h]
        exact List.mem_cons_self _ _
      have hlast2 : (d2 :: ds2).getLast? = some lastd := by
        rw [← List.getLast?_cons_cons]
        exact hlast
      have hnomem2 : lastd ∉ (d2 :: ds2).dropLast := by
        intro hm
        apply hnomem
        rw [List.dropLast_cons₂]
        exact List.mem_cons_of_mem _ hm
      have hsm : (ds2.length + 1) * block = ds2.length * block + block :=
        Nat.succ_mul _ _
      simp only [List.length_cons, Nat.add_sub_cancel] at hbound ⊢
      have hblock : idx + block ≤ H.length := by omega
      have hs : hourSlice lastd block H d idx = (H.drop idx).take block := by
        unfold hourSlice
        rw [if_neg hd]
      have hslen : (hourSlice lastd block H d idx).length = block := by
        rw [hs, List.length_take, List.length_drop, Nat.min_eq_left (by omega)]
      have hbound2 : (idx + block) + ((d2 :: ds2).length - 1) * block ≤ H.length := by
        simp only [List.length_cons, Nat.add_sub_cancel]
        omega
      rw [hourBlocksLoop_cons, hslen, hs]
      rw [show List.range (ds2.length + 1 + 1) =
          0 :: (List.range (ds2.length + 1)).map Nat.succ from List.range_succ_eq_map _,
        List.map_cons, List.map_map]
      congr 1
      · rw [if_neg (by omega), Nat.zero_mul, Nat.add_zero]
      · rw [ih (idx + block) hlast2 hnomem2 hbound2]
        simp only [List.length_cons, Nat.add_sub_cancel]
        apply List.map_congr_left
        intro i hi
        simp only [Function.comp_apply]
        have harith : idx + Nat.succ i * block = idx + block + i * block := by
          have := Nat.succ_mul i block
          omega
        by_cases hin : i = ds2.length
        · rw [if_pos hin, if_pos (show Nat.succ i = ds2.length + 1 by omega), harith, hin]
        · rw [if_neg hin, if_neg (show ¬ Nat.succ i = ds2.length + 1 by omega), harith]

/- ## Claim C1 -/

/-- C1 counterexample: the claim's positional split fails when an earlier
date equals the final date by value.  With dates `["a", "b", "a"]` and six
hours, `block = 2` and the claim predicts `"a"` gets hours 1-2, `"b"` gets
hours 3-4 and the final `"a"` gets hours 5-6; but the loop compares each
date against `all_dates[-1]` by value, so the first `"a"` already takes the
`all_hours[idx:]` branch and absorbs all six hours. -/
theorem combine_positional_claim_false :
    combine ["a", "b", "a"] ["1", "2", "3", "4", "5", "6"] ≠
      [("a", "1"), ("a", "2"), ("b", "3"), ("b", "4"), ("a", "5"), ("a", "6")] := by
  decide

/-- C1 (amended): for every dates list in which no date before the last
position equals the final date's value, and non-empty hours, the reassembly
computes `block = H // D`, assigns to the date at each position `i` up to
`D - 2` exactly the `block` consecutive hour-tokens starting at the cursor
`i * block`, assigns to the last date all remaining hour-tokens, and emits
one pair per hour-token of each block in order; in particular the scenario
`["5/10", "5/11"]` with hours `["22", "23", "0", "1", "2"]` pairs `"5/10"`
with the first two hours and `"5/11"` with the remaining three. -/
theorem combine_blocks_distinct (allDates allHours : List String)
    (hD : allDates ≠ []) (hH : allHours ≠ [])
    (hnorep : allDates.getLastD "" ∉ allDates.dropLast) :
    hourBlocks allDates allHours =
      specBlocks allDates.length (allHours.length / allDates.length) allHours ∧
    (∀ i, i < allDates.length - 1 →
      ((hourBlocks allDates allHours).getD i []).length =
        allHours.length / allDates.length) ∧
    combine allDates allHours =
      (allDates.zip (hourBlocks allDates allHours)).flatMap
        (fun p => p.2.map (fun h => (p.1, h))) ∧
    combine ["5/10", "5/11"] ["22", "23", "0", "1", "2"] =
      [("5/10", "22"), ("5/10", "23"), ("5/11", "0"), ("5/11", "1"), ("5/11", "2")] := by
  have hDpos : 0 < allDates.length := List.length_pos.mpr hD
  have hHpos : 0 < allHours.length := List.length_pos.mpr hH
  have hguard : 0 < allDates.length ∧ 0 < allHours.length := ⟨hDpos, hHpos⟩
  have hlast : allDates.getLast? = some (allDates.getLastD "") :=
    getLast?_eq_some_getLastD allDates "" hD
  have hmul : allDates.length * (allHours.length / allDates.length) ≤ allHours.length := by
    rw [Nat.mul_comm]
    exact Nat.div_mul_le_self _ _
  have hmono : (allDates.length - 1) * (allHours.length / allDates.length) ≤
      allDates.length * (allHours.length / allDates.length) :=
    Nat.mul_le_mul_right _ (Nat.sub_le _ _)
  have hbound : 0 + (allDates.length - 1) * (allHours.length / allDates.length) ≤
      allHours.length := by omega
  have hblocks : hourBlocks allDates allHours =
      specBlocks allDates.length (allHours.length / allDates.length) allHours := by
    unfold hourBlocks specBlocks
    rw [if_pos hguard,
      hourBlocksLoop_no_early _ _ _ allDates 0 hlast hnorep hbound]
    apply List.map_congr_left
    intro i hi
    simp only [Nat.zero_add]
  refine ⟨hblocks, ?_, ?_, by decide⟩
  · intro i hi
    rw [hblocks]
    unfold specBlocks
    rw [getD_map_range _ _ _ _ (by omega : i < allDates.length),
      if_neg (by omega : ¬ i = allDates.length - 1),
      List.length_take, List.length_drop]
    have hsm : (i + 1) * (allHours.length / allDates.length) =
        i * (allHours.length / allDates.length) + allHours.length / allDates.length :=
      Nat.succ_mul _ _
    have hstep : (i + 1) * (allHours.length / allDates.length) ≤
        (allDates.length - 1) * (allHours.length / allDates.length) :=
      Nat.mul_le_mul_right _ (by omega)
    rw [Nat.min_eq_left (by omega)]
  · unfold combine hourBlocks
    rw [if_pos hguard, if_pos hguard]
    exact combineLoop_eq_blocks _ _ _ allDates 0

/-- Witness for C1's amended theorem at the scenario input: two distinct
dates, five hours, blocks `[["22", "23"], ["0", "1", "2"]]`. -/
theorem combine_blocks_distinct_witness :
    (["5/10", "5/11"] : List String) ≠ [] ∧
    ((["5/10", "5/11"] : List String).getLastD "" ∉
      (["5/10", "5/11"] : List String).dropLast) ∧
    hourBlocks ["5/10", "5/11"] ["22", "23", "0", "1", "2"] =
      specBlocks 2 2 ["22", "23", "0", "1", "2"] :=
  ⟨by decide, by decide,
    (combine_blocks_distinct ["5/10", "5/11"] ["22", "23", "0", "1", "2"]
      (by decide) (by decide) (by decide)).1⟩

/- ## Claim C9 -/

/-- C9: for every non-empty dates and hours lists — repeated date labels
included — the reassembly emits exactly `H` pairs whose hour components are
the hours list itself in order (so every consumed block is a contiguous
slice and the cursor advances by exactly the consumed length); the emission
is the date-tagged flattening of the per-date blocks; and after any date
equal in value to the final date, every remaining date gets an empty block,
the preceding blocks and that date's block together covering the whole
hours list (so the first such date absorbs all hours remaining at its
cursor). -/
theorem combine_total_pairs (allDates allHours : List String)
    (hD : allDates ≠ []) (hH : allHours ≠ []) :
    (combine allDates allHours).map Prod.snd = allHours ∧
    (combine allDates allHours).length = allHours.length ∧
    combine allDates allHours =
      (allDates.zip (hourBlocks allDates allHours)).flatMap
        (fun p => p.2.map (fun h => (p.1, h))) ∧
    (∀ pre d post, allDates = pre ++ d :: post → d = allDates.getLastD "" →
      ∃ front rest, hourBlocks allDates allHours =
          front ++ rest :: post.map (fun _ => ([] : List String)) ∧
        front.length = pre.length ∧ front.flatten ++ rest = allHours) := by
  have hDpos : 0 < allDates.length := List.length_pos.mpr hD
  have hHpos : 0 < allHours.length := List.length_pos.mpr hH
  have hguard : 0 < allDates.length ∧ 0 < allHours.length := ⟨hDpos, hHpos⟩
  have hlast : allDates.getLast? = some (allDates.getLastD "") :=
    getLast?_eq_some_getLastD allDates "" hD
  have hsnd : (combine allDates allHours).map Prod.snd = allHours := by
    unfold combine
    rw [if_pos hguard, combineLoop_map_snd,
      hourBlocksLoop_join _ _ _ allDates 0 hlast]
    exact List.drop_zero allHours
  refine ⟨hsnd, ?_, ?_, ?_⟩
  · have hlenmap := congrArg List.length hsnd
    rw [List.length_map] at hlenmap
    exact hlenmap
  · unfold combine hourBlocks
    rw [if_pos hguard, if_pos hguard]
    exact combineLoop_eq_blocks _ _ _ allDates 0
  · intro pre d post hsplit hd
    unfold hourBlocks
    rw [if_pos hguard]
    obtain ⟨front, rest, heq, hlen, hjoin⟩ :=
      hourBlocksLoop_absorb _ _ _ pre allDates 0 d post hsplit hd hlast
    exact ⟨front, rest, heq, hlen, by rw [hjoin, List.drop_zero]⟩

/-- Witness for C9 at a concrete input with a repeated date label: both
dates equal, so the first absorbs all three hours, yet exactly `H` pairs
are emitted with the hours in order. -/
theorem combine_total_pairs_witness :
    (["a", "a"] : List String) ≠ [] ∧ (["1", "2", "3"] : List String) ≠ [] ∧
    (combine ["a", "a"] ["1", "2", "3"]).map Prod.snd = ["1", "2", "3"] :=
  ⟨by decide, by decide,
    (combine_total_pairs ["a", "a"] ["1", "2", "3"] (by decide) (by decide)).1⟩

/- ## Claim C6 -/

/-- Helper: when no two-cell detail row's label contains "Humidity", the
fold preserves the running humidity value. -/
theorem foldl_detailStep_fst (rows : List (List String)) :
    ∀ hw : String × String,
      (∀ cells ∈ rows, cells.length = 2 →
        strContains (cells.getD 0 "") "Humidity" = false) →
      (rows.foldl detailStep hw).1 = hw.1 := by
  induction rows with
  | nil => intro hw _; rfl
  | cons r rs ih =>
    intro hw hno
    rw [List.foldl_cons, ih _ (fun c hc => hno c (List.mem_cons_of_mem _ hc))]
    unfold detailStep
    by_cases hlen : r.length = 2
    · rw [if_pos hlen]
      have hr := hno r (List.mem_cons_self _ _) hlen
      rw [List.getD_eq_getElem?_getD] at hr
      simp [hr]
    · rw [if_neg hlen]

/-- Helper: when no two-cell detail row's label contains "Wind", the fold
preserves the running wind value. -/
theorem foldl_detailStep_snd (rows : List (List String)) :
    ∀ hw : String × String,
      (∀ cells ∈ rows, cells.length = 2 →
        strContains (cells.getD 0 "") "Wind" = false) →
      (rows.foldl detailStep hw).2 = hw.2 := by
  induction rows with
  | nil => intro hw _; rfl
  | cons r rs ih =>
    intro hw hno
    rw [List.foldl_cons, ih _ (fun c hc => hno c (List.mem_cons_of_mem _ hc))]
    unfold detailStep
    by_cases hlen : r.length = 2
    · rw [if_pos hlen]
      have hr := hno r (List.mem_cons_self _ _) hlen
      rw [List.getD_eq_getElem?_getD] at hr
      simp [hr]
    · rw [if_neg hlen]

/-- C6: each of the four fields whose presentation marker is missing takes
the value "N/A" instead of raising (for humidity and wind, "missing" means
no two-cell detail row whose label contains the marker substring), and a
present temperature cell is carried as its stripped display text with no
numeric parsing. -/
theorem current_conditions_defaults (page : CurrentPage) :
    (page.tempNode = none →
      (get_weather_data_html_weather_gov page).temperature = "N/A") ∧
    (∀ t, page.tempNode = some t →
      (get_weather_data_html_weather_gov page).temperature = pyStrip t) ∧
    (page.condNode = none →
      (get_weather_data_html_weather_gov page).conditions = "N/A") ∧
    ((∀ cells ∈ page.detailRows, cells.length = 2 →
        strContains (cells.getD 0 "") "Humidity" = false) →
      (get_weather_data_html_weather_gov page).humidity = "N/A") ∧
    ((∀ cells ∈ page.detailRows, cells.length = 2 →
        strContains (cells.getD 0 "") "Wind" = false) →
      (get_weather_data_html_weather_gov page).wind_speed = "N/A") := by
  refine ⟨?_, ?_, ?_, ?_, ?_⟩
  · intro h
    unfold get_weather_data_html_weather_gov
    rw [h]
  · intro t h
    unfold get_weather_data_html_weather_gov
    rw [h]
  · intro h
    unfold get_weather_data_html_weather_gov
    rw [h]
  · intro h
    unfold get_weather_data_html_weather_gov
    exact foldl_detailStep_fst page.detailRows ("N/A", "N/A") h
  · intro h
    unfold get_weather_data_html_weather_gov
    exact foldl_detailStep_snd page.detailRows ("N/A", "N/A") h

/-- Witness for C6 at the scenario page: temperature cell text "59",
conditions marker absent, no detail rows. -/
theorem current_conditions_defaults_witness :
    (CurrentPage.mk (some "59") none []).condNode = none ∧
    (get_weather_data_html_weather_gov ⟨some "59", none, []⟩).conditions = "N/A" ∧
    (get_weather_data_html_weather_gov ⟨some "59", none, []⟩).temperature = "59" ∧
    (get_weather_data_html_weather_gov ⟨some "59", none, []⟩).humidity = "N/A" :=
  ⟨rfl, (current_conditions_defaults ⟨some "59", none, []⟩).2.2.1 rfl,
    by rw [(current_conditions_defaults ⟨some "59", none, []⟩).2.1 "59" rfl]; decide,
    (current_conditions_defaults ⟨some "59", none, []⟩).2.2.2.1
      (fun c hc => absurd hc (List.not_mem_nil c))⟩
